import Mathlib

/-!
# Verification of the image-align alignment core

A shallow embedding, over the real numbers, of the alignment core of the
image-align library (`src/inc/imagealign`): the planar warp family
(`warp.h`), the alignment engine base state machine (`align_base.h`),
the image pyramid (`image_pyramid.h`), the bilinear sampler (`sampling.h`)
and the inverse-compositional iteration (`inverse_compositional.h`).

Machine `float` arithmetic is modelled by exact real arithmetic, and
3x3 `cv::Matx` values by `Matrix (Fin 3) (Fin 3) ℝ`.  External OpenCV
routines that the core merely calls (`cv::resize`, `cv::pyrDown`) are
modelled as function parameters `down : Image → Image`, since the
properties below depend only on how the core wires them, never on the
pixel content they produce.
-/

open Real

noncomputable section

/-- A 3x3 homogeneous matrix, the representation `PlanarWarp` stores in `_m`. -/
abbrev M3 := Matrix (Fin 3) (Fin 3) ℝ

/-- The value of `std::numeric_limits<float>::max()` (the spec writes it `+∞`):
`(2 - 2⁻²³) · 2¹²⁷ = 2¹²⁸ - 2¹⁰⁴`. -/
def floatMax : ℝ := 2 ^ 128 - 2 ^ 104

/-! ## Warps (`warp.h`)

`PlanarWarp::setIdentity` initialises `_m` to the identity, so a
default-constructed warp is the matrix `1`.  Each `setParameters`
overwrites exactly the entries the source writes and keeps the rest. -/

/-- `PlanarWarp::operator()` for the affine modes: multiply `(x, y, 1)` by `_m`
and keep the first two components (no perspective normalisation). -/
def planarWarpPoint (m : M3) (p : ℝ × ℝ) : ℝ × ℝ :=
  (m 0 0 * p.1 + m 0 1 * p.2 + m 0 2,
   m 1 0 * p.1 + m 1 1 * p.2 + m 1 2)

/-- `PlanarWarp::invMatrix`, fast affine branch (`WarpMode < WARP_PERSPECTIVE`):
`ir` is the closed-form inverse of the upper-left 2x2 block, `ib = -ir * t`,
and the last row is written as `(0, 0, 1)`. -/
def invMatrix (m : M3) : M3 :=
  let d := m 0 0 * m 1 1 - m 0 1 * m 1 0
  let ir00 := m 1 1 / d
  let ir01 := -(m 0 1) / d
  let ir10 := -(m 1 0) / d
  let ir11 := m 0 0 / d
  !![ir00, ir01, -(ir00 * m 0 2 + ir01 * m 1 2);
     ir10, ir11, -(ir10 * m 0 2 + ir11 * m 1 2);
     0, 0, 1]

/-- `Warp<WARP_TRANSLATION>::parameters`: reads `(_m(0,2), _m(1,2))`. -/
def transParameters (m : M3) : ℝ × ℝ :=
  (m 0 2, m 1 2)

/-- `Warp<WARP_TRANSLATION>::setParameters`: writes `_m(0,2)` and `_m(1,2)`,
leaving every other entry of `_m` unchanged. -/
def transSetParameters (m : M3) (p : ℝ × ℝ) : M3 :=
  !![m 0 0, m 0 1, p.1;
     m 1 0, m 1 1, p.2;
     m 2 0, m 2 1, m 2 2]

/-- `Warp<WARP_TRANSLATION>::updateForwardAdditive`. -/
def transUpdateFA (m : M3) (delta : ℝ × ℝ) : M3 :=
  transSetParameters m (transParameters m + delta)

/-- `Warp<WARP_TRANSLATION>::updateForwardCompositional`: the delta warp is
default-constructed (identity matrix) and then given parameters `delta`. -/
def transUpdateFC (m : M3) (delta : ℝ × ℝ) : M3 :=
  m * transSetParameters 1 delta

/-- `Warp<WARP_TRANSLATION>::updateInverseCompositional`. -/
def transUpdateIC (m : M3) (delta : ℝ × ℝ) : M3 :=
  m * invMatrix (transSetParameters 1 delta)

/-- `Warp<WARP_EUCLIDEAN>::parameters`: reads `(_m(0,2), _m(1,2), acos(_m(0,0)))`. -/
def eucParameters (m : M3) : ℝ × ℝ × ℝ :=
  (m 0 2, m 1 2, Real.arccos (m 0 0))

/-- `Warp<WARP_EUCLIDEAN>::setParameters` for `p = (tx, ty, θ)`: writes the
rotation block from `cos θ`, `sin θ` and the translation column, leaving the
last row of `_m` unchanged. -/
def eucSetParameters (m : M3) (p : ℝ × ℝ × ℝ) : M3 :=
  !![Real.cos p.2.2, -Real.sin p.2.2, p.1;
     Real.sin p.2.2, Real.cos p.2.2, p.2.1;
     m 2 0, m 2 1, m 2 2]

/-- `Warp<WARP_EUCLIDEAN>::updateForwardAdditive`. -/
def eucUpdateFA (m : M3) (delta : ℝ × ℝ × ℝ) : M3 :=
  eucSetParameters m (eucParameters m + delta)

/-- `Warp<WARP_EUCLIDEAN>::updateForwardCompositional`. -/
def eucUpdateFC (m : M3) (delta : ℝ × ℝ × ℝ) : M3 :=
  m * eucSetParameters 1 delta

/-- `Warp<WARP_EUCLIDEAN>::updateInverseCompositional`. -/
def eucUpdateIC (m : M3) (delta : ℝ × ℝ × ℝ) : M3 :=
  m * invMatrix (eucSetParameters 1 delta)

/-- `Warp<WARP_SIMILARITY>::parameters`: reads `(tx, ty, a, b) =
(_m(0,2), _m(1,2), _m(0,0) - 1, _m(1,0))`. -/
def simParameters (m : M3) : ℝ × ℝ × ℝ × ℝ :=
  (m 0 2, m 1 2, m 0 0 - 1, m 1 0)

/-- `Warp<WARP_SIMILARITY>::setParameters` for `p = (tx, ty, a, b)`: writes
the linear block `(1+a, -b; b, 1+a)` and the translation column, leaving the
last row of `_m` unchanged. -/
def simSetParameters (m : M3) (p : ℝ × ℝ × ℝ × ℝ) : M3 :=
  !![1 + p.2.2.1, -p.2.2.2, p.1;
     p.2.2.2, 1 + p.2.2.1, p.2.1;
     m 2 0, m 2 1, m 2 2]

/-- `Warp<WARP_SIMILARITY>::updateForwardAdditive`. -/
def simUpdateFA (m : M3) (delta : ℝ × ℝ × ℝ × ℝ) : M3 :=
  simSetParameters m (simParameters m + delta)

/-- `Warp<WARP_SIMILARITY>::updateForwardCompositional`. -/
def simUpdateFC (m : M3) (delta : ℝ × ℝ × ℝ × ℝ) : M3 :=
  m * simSetParameters 1 delta

/-- `Warp<WARP_SIMILARITY>::updateInverseCompositional`. -/
def simUpdateIC (m : M3) (delta : ℝ × ℝ × ℝ × ℝ) : M3 :=
  m * invMatrix (simSetParameters 1 delta)

/-- `std::atan2 (y, x)`, modelled as the principal argument of the complex
number `x + y·i` (value in `(-π, π]`, `atan2 0 0 = 0`, matching libm). -/
def atan2 (y x : ℝ) : ℝ := Complex.arg ⟨x, y⟩

/-- `Warp<WARP_SIMILARITY>::setParametersInCanonicalRepresentation` for
`p = (tx, ty, θ, s)`: delegates to `setParameters` with
`(tx, ty, s·cos θ - 1, s·sin θ)`. -/
def simSetCanonical (m : M3) (p : ℝ × ℝ × ℝ × ℝ) : M3 :=
  simSetParameters m
    (p.1, p.2.1, p.2.2.2 * Real.cos p.2.2.1 - 1, p.2.2.2 * Real.sin p.2.2.1)

/-- `Warp<WARP_SIMILARITY>::parametersInCanonicalRepresentation`:
`(tx, ty, atan2(-_m(0,1), _m(0,0)), sqrt(_m(0,0)² + _m(0,1)²))`. -/
def simGetCanonical (m : M3) : ℝ × ℝ × ℝ × ℝ :=
  (m 0 2, m 1 2, atan2 (-(m 0 1)) (m 0 0),
   Real.sqrt (m 0 0 * m 0 0 + m 0 1 * m 0 1))

/-! ## Rasters and sampling (`sampling.h`)

A `cv::Mat` raster is a width x height single-channel image; `data x y` is
the pixel at column `x`, row `y` (`img.ptr(y)[x]`).  Conversion to `CV_32F`
is the identity in the real-number model, and `cv::saturate_cast<float>` on
a float is the identity, so neither appears below. -/

/-- A single-channel raster: width, height and the pixel values.  `data` is
total on `ℤ × ℤ` for convenience; the sampler only ever reads indices that
the border policy has mapped into range. -/
structure Image where
  width : ℕ
  height : ℕ
  data : ℤ → ℤ → ℝ

/-- `cv::borderInterpolate(p, len, BORDER_REFLECT_101)` (external OpenCV
routine): mirror the index across the borders without repeating the edge
pixel.  OpenCV returns `0` whenever `len == 1`; otherwise the reflected
index is the triangular wave of period `2·len - 2` through `p`. -/
def reflect101 (len : ℕ) (p : ℤ) : ℤ :=
  if len = 1 then 0
  else if p % (2 * (len : ℤ) - 2) < len then p % (2 * (len : ℤ) - 2)
  else 2 * (len : ℤ) - 2 - p % (2 * (len : ℤ) - 2)

/-- `Sampler<SAMPLE_BILINEAR>::sample` (`sampling.h` lines 76-100):
floor the coordinates, map the four corner indices through reflect-101,
and blend with weights from the fractional parts `a`, `b`. -/
def bilinearSample (img : Image) (x y : ℝ) : ℝ :=
  let ix : ℤ := ⌊x⌋
  let iy : ℤ := ⌊y⌋
  let x0 := reflect101 img.width ix
  let x1 := reflect101 img.width (ix + 1)
  let y0 := reflect101 img.height iy
  let y1 := reflect101 img.height (iy + 1)
  let a : ℝ := x - (ix : ℝ)
  let b : ℝ := y - (iy : ℝ)
  let f0 := img.data x0 y0
  let f1 := img.data x1 y0
  let f2 := img.data x0 y1
  let f3 := img.data x1 y1
  (f0 * (1 - a) + f1 * a) * (1 - b) + (f2 * (1 - a) + f3 * a) * b

/-! ## Image pyramid (`image_pyramid.h`) -/

/-- The pyramid level list `_pyr[0] = img, _pyr[i] = down(_pyr[i-1])` with
`k` levels.  `down` stands for the external OpenCV downsampling call
(`cv::pyrDown` in `ImagePyramid::create`, half-scale `cv::resize` in
`AlignBase::prepare`); the properties proved below hold for any `down`. -/
def pyramidList (down : Image → Image) (img : Image) : ℕ → List Image
  | 0 => []
  | k + 1 => img :: pyramidList down (down img) k

/-- `ImagePyramid::create(img, levels)`: clamp `levels` to at least 1, then
build that many levels (`_pyr[0]` is `img` converted to float — the identity
here — and each further level is `pyrDown` of its predecessor). -/
def ImagePyramid.create (down : Image → Image) (img : Image) (levels : ℤ) :
    List Image :=
  pyramidList down img (max levels 1).toNat

/-- `ImagePyramid::maxLevelsForImageSize`: count how often both dimensions
can be halved while still at least 10 pixels each. -/
def maxLevelsForImageSize (w h : ℕ) : ℕ :=
  if hwh : 10 ≤ w ∧ 10 ≤ h then maxLevelsForImageSize (w / 2) (h / 2) + 1
  else 0
termination_by w
decreasing_by exact Nat.div_lt_self (by omega) (by omega)

/-! ## Alignment engine base (`align_base.h`)

The engine state, generic in the warp parameter type `P`
(`WarpTraits<WarpMode>::ParamType`). -/

/-- The private fields of `AlignBase`. -/
structure AlignState (P : Type) where
  templatePyramid : List Image
  targetPyramid : List Image
  level : ℤ
  iter : ℕ
  error : ℝ
  scaleUp : ℝ
  scaleDown : ℝ
  inc : P

/-- `AlignBase::setLevel` (`align_base.h` lines 122-133): clamp the level
into `[0, totalLevels-1]`, reset `_error` to `numeric_limits<float>::max()`
(errors between levels are not comparable) and recompute the two scale
factors.  No other field is touched. -/
def setLevel {P : Type} (st : AlignState P) (lv : ℤ) : AlignState P :=
  let totalLevels : ℤ := st.templatePyramid.length
  let l := max 0 (min lv (totalLevels - 1))
  { st with
    level := l
    error := floatMax
    scaleUp := (2 : ℝ) ^ (totalLevels - l - 1)
    scaleDown := 1 / (2 : ℝ) ^ (totalLevels - l - 1) }

/-- `AlignBase::setLastError`. -/
def setLastError {P : Type} (st : AlignState P) (err : ℝ) : AlignState P :=
  { st with error := err }

/-- `AlignBase::setLastIncrement`. -/
def setLastIncrement {P : Type} (st : AlignState P) (inc : P) : AlignState P :=
  { st with inc := inc }

/-- `AlignBase::prepare` (`align_base.h` lines 49-79): clamp the level count
to at least 1, build both pyramids finest-first, reverse them so the
*coarsest* level sits at index 0, zero `_inc`, reset `_iter` and call
`setLevel(0)`.  The fields `level`, `error` and the scale factors are
uninitialised in C++ until `setLevel(0)` overwrites them; the placeholder
values given here are irrelevant for that reason. -/
def prepare {P : Type} [Zero P] (down : Image → Image)
    (tmpl target : Image) (pyramidLevels : ℤ) : AlignState P :=
  let n := max pyramidLevels 1
  setLevel
    { templatePyramid := (pyramidList down tmpl n.toNat).reverse
      targetPyramid := (pyramidList down target n.toNat).reverse
      level := 0
      iter := 0
      error := 0
      scaleUp := 1
      scaleDown := 1
      inc := 0 } 0

/-- `AlignBase::templateImage`: `_templatePyramid[_level]`. -/
def templateImage {P : Type} (st : AlignState P) : Option Image :=
  st.templatePyramid.get? st.level.toNat

/-- `AlignBase::align(w, maxIterations, eps)` (`align_base.h` lines
108-117): up to `maxIterations` times, perform one alignment step `f`
(the single-step `align`, which runs `alignImpl` and bumps `_iter`), and
break as soon as `cv::norm(lastIncrement()) < eps`.  Returns the final
state together with the number of single steps performed. -/
def alignMulti {P : Type} (f : AlignState P → AlignState P) (nrm : P → ℝ)
    (eps : ℝ) : ℕ → AlignState P → AlignState P × ℕ
  | 0, st => (st, 0)
  | n + 1, st =>
    let st' := f st
    if nrm st'.inc < eps then (st', 1)
    else
      let r := alignMulti f nrm eps n st'
      (r.1, r.2 + 1)

/-! ## Inverse-compositional iteration (`inverse_compositional.h`)

`AlignInverseCompositional::alignImpl` is generic in the warp type `W`; it
touches the warp only through its point operator and
`updateInverseCompositional`, which appear below as the parameters
`warpAt` and `updIC`.  `ParamType` is the vector type `Fin n → ℝ`, and the
stored inverse Hessian acts by matrix-vector product. -/

/-- Modelled from the spec: `AlignBase::isInImage` belongs to the engine
base of the generation of `align_base.h` that `inverse_compositional.h` was
written against, which is not part of the sources; §4.9 step 2 specifies
that a warped point is valid when it lies inside the target raster with a
margin of `border` (= 1) pixels. -/
def isInImage (p : ℝ × ℝ) (size : ℕ × ℕ) (border : ℕ) : Prop :=
  (border : ℝ) ≤ p.1 ∧ p.1 < (size.1 : ℝ) - border ∧
  (border : ℝ) ≤ p.2 ∧ p.2 < (size.2 : ℝ) - border

instance isInImage.decidable (p : ℝ × ℝ) (size : ℕ × ℕ) (border : ℕ) :
    Decidable (isInImage p size border) := by
  unfold isInImage
  infer_instance

/-- Step 1 of `alignImpl`: warp the template pixel `(x, y)` to the target,
`ptgt = w(ptpl * sUp) * sDown` with `sDown = 1 / sUp`. -/
def icTargetPoint {Wp : Type} (sUp : ℝ) (warpAt : Wp → ℝ × ℝ → ℝ × ℝ)
    (w : Wp) (px : ℕ × ℕ) : ℝ × ℝ :=
  let sDown := 1 / sUp
  let q := warpAt w (sUp * (px.1 : ℝ), sUp * (px.2 : ℝ))
  (sDown * q.1, sDown * q.2)

/-- The accumulator of the per-pixel loop of `alignImpl`: the right-hand
side `b`, the sum of squared errors, and the valid-constraint count. -/
structure ICAccum (n : ℕ) where
  b : Fin n → ℝ
  sumErrors : ℝ
  sumConstraints : ℕ

/-- The interior template pixels `(x, y)`, `1 ≤ x ≤ cols-2`,
`1 ≤ y ≤ rows-2`, in the row-major order of the double loop. -/
def interiorPixels (rows cols : ℕ) : List (ℕ × ℕ) :=
  (List.range' 1 (rows - 2)).flatMap fun y =>
    (List.range' 1 (cols - 2)).map fun x => (x, y)

/-- One iteration of the inner loop of `alignImpl` at pixel `px = (x, y)`:
if the warped point is not in the target image (with border 1), skip;
otherwise sample the target bilinearly, form `err = target - template`
(roles reversed relative to the forward variants) and accumulate `b`,
the squared error and the constraint count.  `idx` is the linear index of
the SDI table entry, advanced for skipped pixels too. -/
def icPixel {Wp : Type} {n : ℕ} (tpl target : Image) (sUp : ℝ)
    (sdi : ℕ → Fin n → ℝ) (warpAt : Wp → ℝ × ℝ → ℝ × ℝ) (w : Wp)
    (acc : ICAccum n) (px : ℕ × ℕ) : ICAccum n :=
  let ptgt := icTargetPoint sUp warpAt w px
  if isInImage ptgt (target.width, target.height) 1 then
    let templateIntensity := tpl.data px.1 px.2
    let targetIntensity := bilinearSample target ptgt.1 ptgt.2
    let err := targetIntensity - templateIntensity
    let idx := (px.2 - 1) * (tpl.width - 2) + (px.1 - 1)
    { b := acc.b + err • sdi idx
      sumErrors := acc.sumErrors + err * err
      sumConstraints := acc.sumConstraints + 1 }
  else acc

/-- The result of one `alignImpl` call: the (possibly updated) warp and the
`_error` / `_inc` fields written through `setLastError` /
`setLastIncrement`. -/
structure ICResult (n : ℕ) (Wp : Type) where
  warp : Wp
  error : ℝ
  inc : Fin n → ℝ

/-- `AlignInverseCompositional::alignImpl` (`inverse_compositional.h` lines
146-204): run the interior-pixel loop; if no constraint was valid, set the
last error to `numeric_limits<float>::max()`, the last increment to the
zero vector, and return without touching `w`; otherwise solve
`delta = invHessian * b`, apply the inverse-compositional update and record
the mean squared error and the increment. -/
def alignImplIC {Wp : Type} {n : ℕ} (tpl target : Image) (sUp : ℝ)
    (sdi : ℕ → Fin n → ℝ) (invHessian : Matrix (Fin n) (Fin n) ℝ)
    (warpAt : Wp → ℝ × ℝ → ℝ × ℝ) (updIC : Wp → (Fin n → ℝ) → Wp)
    (w : Wp) : ICResult n Wp :=
  let acc := (interiorPixels tpl.height tpl.width).foldl
      (icPixel tpl target sUp sdi warpAt w) ⟨0, 0, 0⟩
  if acc.sumConstraints = 0 then
    { warp := w, error := floatMax, inc := 0 }
  else
    let delta := invHessian.mulVec acc.b
    { warp := updIC w delta
      error := acc.sumErrors / (acc.sumConstraints : ℝ)
      inc := delta }

/-! Concrete inputs used by counterexamples and witnesses. -/

/-- A 1x1 zero raster. -/
def img0 : Image := ⟨1, 1, fun _ _ => 0⟩

/-- A 16x16 zero raster: `maxLevelsForImageSize` admits exactly one level. -/
def img16 : Image := ⟨16, 16, fun _ _ => 0⟩

/-- A 3x3 zero raster (one interior pixel). -/
def img3 : Image := ⟨3, 3, fun _ _ => 0⟩

/-! ## Helper lemmas about the warp embedding -/

lemma invMatrix_one : invMatrix 1 = 1 := by
  unfold invMatrix
  ext i j
  fin_cases i <;> fin_cases j <;>
    simp [Matrix.one_apply, Matrix.vecHead, Matrix.vecTail]

lemma transSetParameters_one_zero : transSetParameters 1 0 = 1 := by
  unfold transSetParameters
  ext i j
  fin_cases i <;> fin_cases j <;>
    simp [Matrix.one_apply, Matrix.vecHead, Matrix.vecTail]

lemma eucSetParameters_one_zero : eucSetParameters 1 0 = 1 := by
  unfold eucSetParameters
  ext i j
  fin_cases i <;> fin_cases j <;>
    simp [Matrix.one_apply, Matrix.vecHead, Matrix.vecTail]

lemma simSetParameters_one_zero : simSetParameters 1 0 = 1 := by
  unfold simSetParameters
  ext i j
  fin_cases i <;> fin_cases j <;>
    simp [Matrix.one_apply, Matrix.vecHead, Matrix.vecTail]

end

/-! ## C1 — zero-increment updates -/

/-- C1 (counterexample): the claim as stated is false.  For the Euclidean
warp holding `p = (0, 0, -π/2)`, `updateForwardAdditive` with `Δ = 0` changes
the warp matrix: `parameters()` recovers the angle as `acos(_m(0,0)) = π/2`,
so the rewritten matrix holds `sin(π/2) = 1` at entry `(1,0)` where the
original holds `sin(-π/2) = -1`. -/
theorem eucUpdateFA_zero_changes_warp :
    eucUpdateFA (eucSetParameters 1 (0, 0, -(π / 2))) 0
      ≠ eucSetParameters 1 (0, 0, -(π / 2)) := by
  intro h
  have h10 := congrFun (congrFun h 1) 0
  simp [eucUpdateFA, eucSetParameters, eucParameters, Prod.ext_iff] at h10
  norm_num at h10

/-- C1 (amended): a zero increment leaves the warp matrix unchanged for all
three updates of the translation and similarity warps and for the
compositional updates of the Euclidean warp; the Euclidean forward-additive
update with `Δ = 0` leaves the warp holding `p = (tx, ty, θ)` unchanged
provided `sin θ ≥ 0` (because `parameters()` reads the angle back as
`acos(_m(0,0))`, which loses the sign of `θ`). -/
theorem warp_update_zero_invariance :
    (∀ m : M3, transUpdateFA m 0 = m ∧ transUpdateFC m 0 = m ∧
      transUpdateIC m 0 = m)
    ∧ (∀ m : M3, eucUpdateFC m 0 = m ∧ eucUpdateIC m 0 = m)
    ∧ (∀ (m : M3) (p : ℝ × ℝ × ℝ), 0 ≤ Real.sin p.2.2 →
        eucUpdateFA (eucSetParameters m p) 0 = eucSetParameters m p)
    ∧ (∀ (m : M3) (p : ℝ × ℝ × ℝ × ℝ),
        simUpdateFA (simSetParameters m p) 0 = simSetParameters m p)
    ∧ (∀ m : M3, simUpdateFC m 0 = m ∧ simUpdateIC m 0 = m) := by
  refine ⟨?_, ?_, ?_, ?_, ?_⟩
  · intro m
    refine ⟨?_, ?_, ?_⟩
    · unfold transUpdateFA transSetParameters transParameters
      ext i j
      fin_cases i <;> fin_cases j <;>
        simp [Matrix.vecHead, Matrix.vecTail]
    · rw [transUpdateFC, transSetParameters_one_zero, mul_one]
    · rw [transUpdateIC, transSetParameters_one_zero, invMatrix_one, mul_one]
  · intro m
    constructor
    · rw [eucUpdateFC, eucSetParameters_one_zero, mul_one]
    · rw [eucUpdateIC, eucSetParameters_one_zero, invMatrix_one, mul_one]
  · rintro m ⟨tx, ty, θ⟩ hθ
    have hc : Real.cos (Real.arccos (Real.cos θ)) = Real.cos θ :=
      Real.cos_arccos (Real.neg_one_le_cos θ) (Real.cos_le_one θ)
    have hs : Real.sin (Real.arccos (Real.cos θ)) = Real.sin θ := by
      rw [Real.sin_arccos]
      have h1 : 1 - Real.cos θ ^ 2 = Real.sin θ ^ 2 := by
        have := Real.sin_sq_add_cos_sq θ
        linarith
      rw [h1, Real.sqrt_sq hθ]
    unfold eucUpdateFA eucParameters
    ext i j
    fin_cases i <;> fin_cases j <;>
      simp [eucSetParameters, Matrix.vecHead, Matrix.vecTail, hc, hs]
  · rintro m ⟨tx, ty, a, b⟩
    unfold simUpdateFA simParameters
    ext i j
    fin_cases i <;> fin_cases j <;>
      simp [simSetParameters, Matrix.vecHead, Matrix.vecTail]
  · intro m
    constructor
    · rw [simUpdateFC, simSetParameters_one_zero, mul_one]
    · rw [simUpdateIC, simSetParameters_one_zero, invMatrix_one, mul_one]

/-- C1 (witness): the amended theorem applied at the Euclidean warp holding
`(5, 7, 0)`, whose angle satisfies `sin 0 ≥ 0`. -/
theorem warp_update_zero_invariance_witness :
    eucUpdateFA (eucSetParameters 1 (5, 7, 0)) 0 = eucSetParameters 1 (5, 7, 0) :=
  warp_update_zero_invariance.2.2.1 1 (5, 7, 0) (by simp)

/-! ## C6 — similarity canonical round trip -/

/-- C6: for every similarity parameter vector `(tx, ty, θ, s)` with `s > 0`
and `θ ∈ (-π, π)`, `setParametersInCanonicalRepresentation` followed by
`parametersInCanonicalRepresentation` returns exactly `(tx, ty, θ, s)` in the
real-arithmetic model — in particular within the claimed `1e-4` tolerance. -/
theorem sim_canonical_roundtrip (m : M3) (tx ty θ s : ℝ)
    (hs : 0 < s) (h1 : -π < θ) (h2 : θ < π) :
    simGetCanonical (simSetCanonical m (tx, ty, θ, s)) = (tx, ty, θ, s) := by
  have harg : atan2 (s * Real.sin θ) (s * Real.cos θ) = θ := by
    unfold atan2
    have hmk : (⟨s * Real.cos θ, s * Real.sin θ⟩ : ℂ)
        = (s : ℂ) * (Complex.cos θ + Complex.sin θ * Complex.I) := by
      rw [Complex.mk_eq_add_mul_I, ← Complex.ofReal_cos, ← Complex.ofReal_sin]
      push_cast
      ring
    rw [hmk]
    exact Complex.arg_mul_cos_add_sin_mul_I hs ⟨h1, h2.le⟩
  have hsqrt : Real.sqrt (s * Real.cos θ * (s * Real.cos θ)
      + s * Real.sin θ * (s * Real.sin θ)) = s := by
    have hsum : s * Real.cos θ * (s * Real.cos θ)
        + s * Real.sin θ * (s * Real.sin θ)
        = s ^ 2 * (Real.sin θ ^ 2 + Real.cos θ ^ 2) := by ring
    rw [hsum, Real.sin_sq_add_cos_sq, mul_one, Real.sqrt_sq hs.le]
  unfold simGetCanonical simSetCanonical simSetParameters
  simp only [Prod.mk.injEq]
  refine ⟨by simp, by simp [Matrix.vecHead, Matrix.vecTail], ?_, ?_⟩
  · simpa using harg
  · simpa using hsqrt

/-- C6 (witness): the round trip at `m = 1`, `(tx, ty, θ, s) = (1, 2, 0, 1)`. -/
theorem sim_canonical_roundtrip_witness :
    simGetCanonical (simSetCanonical 1 (1, 2, 0, 1)) = (1, 2, 0, 1) :=
  sim_canonical_roundtrip 1 1 2 0 1 (by norm_num)
    (by simpa using neg_neg_of_pos Real.pi_pos) Real.pi_pos

/-! ## C9 — the closed-form affine inverse -/

/-- C9: for every planar warp matrix with affine last row `(0, 0, 1)` (the
form every translation, Euclidean and similarity warp maintains — the second
through fourth conjuncts show each mode's `setParameters` never touches the
last row) whose upper-left 2x2 block is invertible, `invMatrix` has last row
`(0, 0, 1)` and is a right inverse: `matrix() * invMatrix() = 1`. -/
theorem planar_invMatrix_right_inverse :
    (∀ m : M3, m 2 0 = 0 → m 2 1 = 0 → m 2 2 = 1 →
      m 0 0 * m 1 1 - m 0 1 * m 1 0 ≠ 0 →
      (invMatrix m) 2 0 = 0 ∧ (invMatrix m) 2 1 = 0 ∧ (invMatrix m) 2 2 = 1 ∧
        m * invMatrix m = 1)
    ∧ (∀ (m : M3) (p : ℝ × ℝ) (i : Fin 3),
        (transSetParameters m p) 2 i = m 2 i)
    ∧ (∀ (m : M3) (p : ℝ × ℝ × ℝ) (i : Fin 3),
        (eucSetParameters m p) 2 i = m 2 i)
    ∧ (∀ (m : M3) (p : ℝ × ℝ × ℝ × ℝ) (i : Fin 3),
        (simSetParameters m p) 2 i = m 2 i) := by
  refine ⟨?_, ?_, ?_, ?_⟩
  · intro m h20 h21 h22 hd
    refine ⟨by simp [invMatrix], by simp [invMatrix], by simp [invMatrix], ?_⟩
    ext i j
    fin_cases i <;> fin_cases j <;>
      simp [invMatrix, Matrix.mul_apply, Fin.sum_univ_three, Matrix.one_apply,
        Matrix.vecHead, Matrix.vecTail, h20, h21, h22] <;>
      field_simp <;>
      ring
  · intro m p i
    fin_cases i <;> simp [transSetParameters, Matrix.vecHead, Matrix.vecTail]
  · intro m p i
    fin_cases i <;> simp [eucSetParameters, Matrix.vecHead, Matrix.vecTail]
  · intro m p i
    fin_cases i <;> simp [simSetParameters, Matrix.vecHead, Matrix.vecTail]

/-- C9 (witness): the inverse property at the translation-by-`(3, 4)` matrix,
whose linear block is the identity. -/
theorem planar_invMatrix_right_inverse_witness :
    (invMatrix !![1, 0, 3; 0, 1, 4; 0, 0, 1]) 2 0 = 0
    ∧ (invMatrix !![1, 0, 3; 0, 1, 4; 0, 0, 1]) 2 1 = 0
    ∧ (invMatrix !![1, 0, 3; 0, 1, 4; 0, 0, 1]) 2 2 = 1
    ∧ !![1, 0, 3; 0, 1, 4; 0, 0, 1] * invMatrix !![1, 0, 3; 0, 1, 4; 0, 0, 1]
        = (1 : M3) :=
  planar_invMatrix_right_inverse.1 !![1, 0, 3; 0, 1, 4; 0, 0, 1]
    (by simp [Matrix.vecHead, Matrix.vecTail])
    (by simp [Matrix.vecHead, Matrix.vecTail])
    (by simp [Matrix.vecHead, Matrix.vecTail])
    (by norm_num)

/-! ## Helper lemmas about pyramids and the engine state -/

lemma pyramidList_length (down : Image → Image) :
    ∀ (k : ℕ) (img : Image), (pyramidList down img k).length = k := by
  intro k
  induction k with
  | zero => intro img; rfl
  | succ k ih => intro img; simp [pyramidList, ih]

lemma pyramidList_reverse_get_zero (down : Image → Image) :
    ∀ (k : ℕ) (img : Image),
      (pyramidList down img (k + 1)).reverse.get? 0 = some (down^[k] img) := by
  intro k
  induction k with
  | zero => intro img; rfl
  | succ k ih =>
    intro img
    have hrw : pyramidList down img (k + 2)
        = img :: pyramidList down (down img) (k + 1) := rfl
    rw [hrw, List.reverse_cons]
    rw [List.get?_eq_getElem?, List.getElem?_append_left, ← List.get?_eq_getElem?,
      ih (down img), Function.iterate_succ_apply]
    rw [List.length_reverse, pyramidList_length]
    omega

lemma reflect101_mem (len : ℕ) (hlen : 1 ≤ len) (p : ℤ) :
    0 ≤ reflect101 len p ∧ reflect101 len p < len := by
  unfold reflect101
  by_cases h1 : len = 1
  · simp [h1]
  · have h2 : 2 ≤ len := by omega
    have h2' : (2 : ℤ) ≤ (len : ℤ) := by exact_mod_cast h2
    have hm : 0 < 2 * (len : ℤ) - 2 := by omega
    have hq0 : 0 ≤ p % (2 * (len : ℤ) - 2) := Int.emod_nonneg p (by omega)
    have hq1 : p % (2 * (len : ℤ) - 2) < 2 * (len : ℤ) - 2 :=
      Int.emod_lt_of_pos p hm
    rw [if_neg h1]
    by_cases h3 : p % (2 * (len : ℤ) - 2) < (len : ℤ)
    · rw [if_pos h3]
      exact ⟨hq0, h3⟩
    · rw [if_neg h3]
      omega

/-! ## C2 — state selected by `prepare` -/

/-- C2 (counterexample): the claim as stated is false.  After
`prepare(T, I, 3)` the current level index returned by `level()` is `0`,
not `n - 1 = 2`. -/
theorem prepare_level_index_counterexample :
    (prepare (P := ℝ × ℝ) id img0 img0 3).level ≠ 3 - 1 := by
  simp [prepare, setLevel, pyramidList, img0]

/-- C2 (amended): after `prepare(T, I, n)` the engine sits on the coarsest
pyramid level, but the pyramids are stored coarsest-first: `level()` returns
`0`, index `0` holds the most-downsampled image (the selected template image
is `down` applied `n-1` times to `T`), and the scale factor to the finest
level is `2^(n-1)`; the iteration counter is reset.  (`n` is the requested
count clamped to at least 1.) -/
theorem prepare_selects_coarsest {P : Type} [Zero P] (down : Image → Image)
    (tmpl target : Image) (pyramidLevels : ℤ) :
    (prepare (P := P) down tmpl target pyramidLevels).level = 0
    ∧ (prepare (P := P) down tmpl target pyramidLevels).iter = 0
    ∧ (prepare (P := P) down tmpl target pyramidLevels).templatePyramid.length
        = (max pyramidLevels 1).toNat
    ∧ templateImage (prepare (P := P) down tmpl target pyramidLevels)
        = some (down^[(max pyramidLevels 1).toNat - 1] tmpl)
    ∧ (prepare (P := P) down tmpl target pyramidLevels).scaleUp
        = (2 : ℝ) ^ (max pyramidLevels 1 - 1) := by
  have hN : 1 ≤ (max pyramidLevels 1).toNat := by omega
  obtain ⟨k, hk⟩ : ∃ k, (max pyramidLevels 1).toNat = k + 1 :=
    ⟨(max pyramidLevels 1).toNat - 1, by omega⟩
  have hlen : ((pyramidList down tmpl (max pyramidLevels 1).toNat).reverse).length
      = (max pyramidLevels 1).toNat := by
    rw [List.length_reverse, pyramidList_length]
  have hlevel : (prepare (P := P) down tmpl target pyramidLevels).level = 0 := by
    simp [prepare, setLevel, hlen]
  refine ⟨hlevel, ?_, ?_, ?_, ?_⟩
  · simp [prepare, setLevel]
  · simp [prepare, setLevel, hlen]
  · unfold templateImage
    rw [hlevel]
    have htp : (prepare (P := P) down tmpl target pyramidLevels).templatePyramid
        = (pyramidList down tmpl (max pyramidLevels 1).toNat).reverse := by
      simp [prepare, setLevel]
    rw [htp, hk, Int.toNat_zero, pyramidList_reverse_get_zero]
    norm_num
  · have hup : (prepare (P := P) down tmpl target pyramidLevels).scaleUp
        = (2 : ℝ) ^ (((max pyramidLevels 1).toNat : ℤ) - 0 - 1) := by
      simp [prepare, setLevel, hlen]
    rw [hup]
    congr 1
    omega

/-! ## C3 — no upper clamp on the level count -/

/-- C3 (counterexample): the claim as stated is false.  For a pair of 16x16
images, `maxLevelsForImageSize` admits one level, yet `prepare(T, I, 3)`
builds three pyramid levels, exceeding
`min(maxLevels(T), maxLevels(I)) = 1`. -/
theorem prepare_exceeds_maxLevels_counterexample :
    maxLevelsForImageSize img16.width img16.height = 1
    ∧ ¬ ((prepare (P := ℝ × ℝ) id img16 img16 3).templatePyramid.length
          ≤ min (maxLevelsForImageSize img16.width img16.height)
              (maxLevelsForImageSize img16.width img16.height)) := by
  have h16 : maxLevelsForImageSize 16 16 = 1 := by
    rw [maxLevelsForImageSize]
    norm_num
    rw [maxLevelsForImageSize]
    norm_num
  have hlen : (prepare (P := ℝ × ℝ) id img16 img16 3).templatePyramid.length
      = 3 := by
    simp [prepare, setLevel, pyramidList_length]
  constructor
  · exact h16
  · rw [hlen]
    simp [img16, h16]

/-- C3 (amended): `prepare` clamps the requested level count only from
below: both pyramids receive `max(n, 1)` levels — at least one — regardless
of the sizes of the two images (no upper clamp by `maxLevelsForImageSize`
is applied). -/
theorem prepare_clamps_levels_only_below {P : Type} [Zero P]
    (down : Image → Image) (tmpl target : Image) (pyramidLevels : ℤ) :
    (prepare (P := P) down tmpl target pyramidLevels).templatePyramid.length
        = (max pyramidLevels 1).toNat
    ∧ (prepare (P := P) down tmpl target pyramidLevels).targetPyramid.length
        = (max pyramidLevels 1).toNat
    ∧ 1 ≤ (prepare (P := P) down tmpl target
        pyramidLevels).templatePyramid.length := by
  refine ⟨?_, ?_, ?_⟩
  · simp [prepare, setLevel, pyramidList_length]
  · simp [prepare, setLevel, pyramidList_length]
  · simp [prepare, setLevel, pyramidList_length]

/-! ## C4 — what `setLevel` does and does not reset -/

/-- C4 (counterexample): the claim as stated is false.  On a prepared engine
whose last increment was set to `1` by an alignment step
(`setLastIncrement`), `set_level(0)` leaves the last increment at `1`:
it does not reset it to the zero vector. -/
theorem setLevel_keeps_increment_counterexample :
    (setLevel (setLastIncrement (prepare (P := ℝ) id img0 img0 2) 1) 0).inc
      ≠ 0 := by
  simp [setLevel, setLastIncrement]

/-- C4 (amended): `setLevel(k)` clamps `k` into `[0, n-1]` (for a pyramid
with `n ≥ 1` levels), resets the stored last error to
`numeric_limits<float>::max()` — the spec's `+∞` sentinel — and recomputes
the scale factor; it leaves the last increment (and the iteration counter)
unchanged. -/
theorem setLevel_clamps_and_resets_error {P : Type} (st : AlignState P)
    (k : ℤ) :
    (setLevel st k).level
        = max 0 (min k ((st.templatePyramid.length : ℤ) - 1))
    ∧ (setLevel st k).error = floatMax
    ∧ (setLevel st k).inc = st.inc
    ∧ (setLevel st k).iter = st.iter
    ∧ (setLevel st k).scaleUp
        = (2 : ℝ) ^ ((st.templatePyramid.length : ℤ) - (setLevel st k).level - 1)
    ∧ (1 ≤ st.templatePyramid.length →
        0 ≤ (setLevel st k).level
        ∧ (setLevel st k).level ≤ (st.templatePyramid.length : ℤ) - 1) := by
  refine ⟨rfl, rfl, rfl, rfl, rfl, ?_⟩
  intro h
  simp [setLevel]
  omega

/-- C4 (witness): the amended theorem applied to a freshly prepared
two-level engine and `k = 5`: the clamped level lies in `[0, 1]`. -/
theorem setLevel_clamps_and_resets_error_witness :
    0 ≤ (setLevel (prepare (P := ℝ × ℝ) id img0 img0 2) 5).level
    ∧ (setLevel (prepare (P := ℝ × ℝ) id img0 img0 2) 5).level
        ≤ ((prepare (P := ℝ × ℝ) id img0 img0 2).templatePyramid.length : ℤ)
          - 1 :=
  (setLevel_clamps_and_resets_error (prepare (P := ℝ × ℝ) id img0 img0 2)
    5).2.2.2.2.2 (by norm_num [prepare, setLevel, pyramidList_length])

/-! ## C8 — pyramid level count -/

/-- C8 (counterexample): the claim as stated is false.  Requesting `n = 0`
levels still produces a pyramid with one level
(`create` clamps `levels` to at least 1), so `len() ≠ n`. -/
theorem pyramid_create_length_counterexample :
    (ImagePyramid.create id img0 0).length ≠ 0 := by
  simp [ImagePyramid.create, pyramidList_length]

/-- C8 (amended): `ImagePyramid::create(img, n)` builds exactly `max(n, 1)`
levels — in particular exactly `n` levels whenever `n ≥ 1`. -/
theorem pyramid_create_length (down : Image → Image) (img : Image)
    (levels : ℤ) :
    (ImagePyramid.create down img levels).length = (max levels 1).toNat
    ∧ (1 ≤ levels →
        ((ImagePyramid.create down img levels).length : ℤ) = levels) := by
  constructor
  · simp [ImagePyramid.create, pyramidList_length]
  · intro h
    simp [ImagePyramid.create, pyramidList_length]
    omega

/-- C8 (witness): a pyramid requested with 4 levels has length 4. -/
theorem pyramid_create_length_witness :
    ((ImagePyramid.create id img0 4).length : ℤ) = 4 :=
  (pyramid_create_length id img0 4).2 (by norm_num)

/-! ## C7 — the multi-iteration driver -/

/-- C7: `align(w, maxIterations, eps)` performs at most `maxIterations`
single alignment steps (the step count is the second component of
`alignMulti`), its final state is the step function iterated that many
times, and it stops before exhausting the budget exactly when the norm of
the last increment falls below `eps` after some step within the budget. -/
theorem alignMulti_budget_and_stop {P : Type} (f : AlignState P → AlignState P)
    (nrm : P → ℝ) (eps : ℝ) :
    ∀ (n : ℕ) (st : AlignState P),
      (alignMulti f nrm eps n st).2 ≤ n
      ∧ (alignMulti f nrm eps n st).1 = f^[(alignMulti f nrm eps n st).2] st
      ∧ ((alignMulti f nrm eps n st).2 < n ↔
          ∃ j, 0 < j ∧ j < n ∧ nrm ((f^[j] st).inc) < eps) := by
  intro n
  induction n with
  | zero =>
    intro st
    refine ⟨le_refl 0, rfl, ?_⟩
    simp [alignMulti]
  | succ n ih =>
    intro st
    by_cases h : nrm ((f st).inc) < eps
    · have hru : alignMulti f nrm eps (n + 1) st = (f st, 1) := by
        simp [alignMulti, h]
      rw [hru]
      refine ⟨by omega, by simp, ?_⟩
      constructor
      · intro h1
        exact ⟨1, by omega, by omega, by simpa using h⟩
      · rintro ⟨j, hj0, hjn, -⟩
        omega
    · have hru : alignMulti f nrm eps (n + 1) st
          = ((alignMulti f nrm eps n (f st)).1,
             (alignMulti f nrm eps n (f st)).2 + 1) := by
        simp [alignMulti, h]
      obtain ⟨ih1, ih2, ih3⟩ := ih (f st)
      rw [hru]
      refine ⟨by omega, ?_, ?_⟩
      · rw [Function.iterate_succ_apply]
        exact ih2
      · constructor
        · intro hlt
          have hr : (alignMulti f nrm eps n (f st)).2 < n := by omega
          obtain ⟨j, hj0, hjn, hc⟩ := ih3.mp hr
          refine ⟨j + 1, by omega, by omega, ?_⟩
          rwa [Function.iterate_succ_apply]
        · rintro ⟨j, hj0, hjn, hc⟩
          obtain ⟨j', rfl⟩ : ∃ j', j = j' + 1 := ⟨j - 1, by omega⟩
          by_cases hj' : j' = 0
          · subst hj'
            rw [Function.iterate_succ_apply, Function.iterate_zero_apply] at hc
            exact absurd hc h
          · have hex : ∃ jj, 0 < jj ∧ jj < n ∧ nrm ((f^[jj] (f st)).inc) < eps := by
              refine ⟨j', by omega, by omega, ?_⟩
              rwa [← Function.iterate_succ_apply]
            have := ih3.mpr hex
            omega

/-! ## C10 — the bilinear sampler is a convex combination -/

/-- C10: the bilinear sample is the convex combination of the four corner
pixels with weights `(1-a)(1-b), a(1-b), (1-a)b, ab` where `a, b ∈ [0, 1)`
are the fractional parts of the coordinates; consequently, for every lower
and upper bound of the raster's pixel values (in particular its minimum and
maximum), the sampled value lies between them. -/
theorem bilinear_convex_bounded (img : Image) (x y : ℝ)
    (hw : 1 ≤ img.width) (hh : 1 ≤ img.height) :
    (0 ≤ x - (⌊x⌋ : ℝ) ∧ x - (⌊x⌋ : ℝ) < 1
      ∧ 0 ≤ y - (⌊y⌋ : ℝ) ∧ y - (⌊y⌋ : ℝ) < 1)
    ∧ bilinearSample img x y
        = (1 - (x - (⌊x⌋ : ℝ))) * (1 - (y - (⌊y⌋ : ℝ)))
            * img.data (reflect101 img.width ⌊x⌋) (reflect101 img.height ⌊y⌋)
          + (x - (⌊x⌋ : ℝ)) * (1 - (y - (⌊y⌋ : ℝ)))
            * img.data (reflect101 img.width (⌊x⌋ + 1))
                (reflect101 img.height ⌊y⌋)
          + (1 - (x - (⌊x⌋ : ℝ))) * (y - (⌊y⌋ : ℝ))
            * img.data (reflect101 img.width ⌊x⌋)
                (reflect101 img.height (⌊y⌋ + 1))
          + (x - (⌊x⌋ : ℝ)) * (y - (⌊y⌋ : ℝ))
            * img.data (reflect101 img.width (⌊x⌋ + 1))
                (reflect101 img.height (⌊y⌋ + 1))
    ∧ ∀ lo hi : ℝ,
        (∀ i j : ℤ, 0 ≤ i → i < (img.width : ℤ) → 0 ≤ j → j < (img.height : ℤ)
          → lo ≤ img.data i j ∧ img.data i j ≤ hi) →
        lo ≤ bilinearSample img x y ∧ bilinearSample img x y ≤ hi := by
  have ha0 : 0 ≤ x - (⌊x⌋ : ℝ) := by
    have := Int.floor_le x
    linarith
  have ha1 : x - (⌊x⌋ : ℝ) < 1 := by
    have := Int.lt_floor_add_one x
    linarith
  have hb0 : 0 ≤ y - (⌊y⌋ : ℝ) := by
    have := Int.floor_le y
    linarith
  have hb1 : y - (⌊y⌋ : ℝ) < 1 := by
    have := Int.lt_floor_add_one y
    linarith
  have hform : bilinearSample img x y
      = (1 - (x - (⌊x⌋ : ℝ))) * (1 - (y - (⌊y⌋ : ℝ)))
          * img.data (reflect101 img.width ⌊x⌋) (reflect101 img.height ⌊y⌋)
        + (x - (⌊x⌋ : ℝ)) * (1 - (y - (⌊y⌋ : ℝ)))
          * img.data (reflect101 img.width (⌊x⌋ + 1))
              (reflect101 img.height ⌊y⌋)
        + (1 - (x - (⌊x⌋ : ℝ))) * (y - (⌊y⌋ : ℝ))
          * img.data (reflect101 img.width ⌊x⌋)
              (reflect101 img.height (⌊y⌋ + 1))
        + (x - (⌊x⌋ : ℝ)) * (y - (⌊y⌋ : ℝ))
          * img.data (reflect101 img.width (⌊x⌋ + 1))
              (reflect101 img.height (⌊y⌋ + 1)) := by
    unfold bilinearSample
    ring
  refine ⟨⟨ha0, ha1, hb0, hb1⟩, hform, ?_⟩
  intro lo hi hbound
  obtain ⟨hx0l, hx0r⟩ := reflect101_mem img.width hw ⌊x⌋
  obtain ⟨hx1l, hx1r⟩ := reflect101_mem img.width hw (⌊x⌋ + 1)
  obtain ⟨hy0l, hy0r⟩ := reflect101_mem img.height hh ⌊y⌋
  obtain ⟨hy1l, hy1r⟩ := reflect101_mem img.height hh (⌊y⌋ + 1)
  have h00 := hbound _ _ hx0l hx0r hy0l hy0r
  have h01 := hbound _ _ hx1l hx1r hy0l hy0r
  have h10 := hbound _ _ hx0l hx0r hy1l hy1r
  have h11 := hbound _ _ hx1l hx1r hy1l hy1r
  have w00 : 0 ≤ (1 - (x - (⌊x⌋ : ℝ))) * (1 - (y - (⌊y⌋ : ℝ))) :=
    mul_nonneg (by linarith) (by linarith)
  have w01 : 0 ≤ (x - (⌊x⌋ : ℝ)) * (1 - (y - (⌊y⌋ : ℝ))) :=
    mul_nonneg ha0 (by linarith)
  have w10 : 0 ≤ (1 - (x - (⌊x⌋ : ℝ))) * (y - (⌊y⌋ : ℝ)) :=
    mul_nonneg (by linarith) hb0
  have w11 : 0 ≤ (x - (⌊x⌋ : ℝ)) * (y - (⌊y⌋ : ℝ)) := mul_nonneg ha0 hb0
  rw [hform]
  constructor
  · nlinarith [mul_le_mul_of_nonneg_left h00.1 w00,
      mul_le_mul_of_nonneg_left h01.1 w01,
      mul_le_mul_of_nonneg_left h10.1 w10,
      mul_le_mul_of_nonneg_left h11.1 w11]
  · nlinarith [mul_le_mul_of_nonneg_left h00.2 w00,
      mul_le_mul_of_nonneg_left h01.2 w01,
      mul_le_mul_of_nonneg_left h10.2 w10,
      mul_le_mul_of_nonneg_left h11.2 w11]

/-- C10 (witness): the theorem at the 1x1 zero raster and `(x, y) = (0, 0)`. -/
theorem bilinear_convex_bounded_witness :
    0 ≤ (0 : ℝ) - (⌊(0 : ℝ)⌋ : ℝ) ∧ (0 : ℝ) - (⌊(0 : ℝ)⌋ : ℝ) < 1
      ∧ 0 ≤ (0 : ℝ) - (⌊(0 : ℝ)⌋ : ℝ) ∧ (0 : ℝ) - (⌊(0 : ℝ)⌋ : ℝ) < 1 :=
  (bilinear_convex_bounded img0 0 0 (by norm_num [img0])
    (by norm_num [img0])).1

/-! ## C5 — inverse-compositional step with no valid pixels -/

lemma icPixel_foldl_skip {Wp : Type} {n : ℕ} (tpl target : Image) (sUp : ℝ)
    (sdi : ℕ → Fin n → ℝ) (warpAt : Wp → ℝ × ℝ → ℝ × ℝ) (w : Wp) :
    ∀ (l : List (ℕ × ℕ)) (acc : ICAccum n),
      (∀ px ∈ l, ¬ isInImage (icTargetPoint sUp warpAt w px)
          (target.width, target.height) 1) →
      l.foldl (icPixel tpl target sUp sdi warpAt w) acc = acc := by
  intro l
  induction l with
  | nil => intro acc _; rfl
  | cons px l ih =>
    intro acc h
    rw [List.foldl_cons]
    have hskip : icPixel tpl target sUp sdi warpAt w acc px = acc := by
      simp only [icPixel]
      rw [if_neg (h px (by simp))]
    rw [hskip]
    exact ih acc fun q hq => h q (by simp [hq])

/-- C5: in the inverse-compositional step, if every warped interior template
pixel fails the validity test against the target raster (so the constraint
count stays zero), then `alignImpl` sets the last error to
`numeric_limits<float>::max()` (the spec's `+∞`), sets the last increment to
the zero vector, and returns the caller's warp `w` untouched — no
inverse-compositional update is applied. -/
theorem ic_no_valid_pixels {Wp : Type} {n : ℕ} (tpl target : Image)
    (sUp : ℝ) (sdi : ℕ → Fin n → ℝ) (invHessian : Matrix (Fin n) (Fin n) ℝ)
    (warpAt : Wp → ℝ × ℝ → ℝ × ℝ) (updIC : Wp → (Fin n → ℝ) → Wp) (w : Wp)
    (h : ∀ px ∈ interiorPixels tpl.height tpl.width,
      ¬ isInImage (icTargetPoint sUp warpAt w px)
          (target.width, target.height) 1) :
    alignImplIC tpl target sUp sdi invHessian warpAt updIC w
      = { warp := w, error := floatMax, inc := 0 } := by
  have hfold : (interiorPixels tpl.height tpl.width).foldl
      (icPixel tpl target sUp sdi warpAt w) ⟨0, 0, 0⟩
        = (⟨0, 0, 0⟩ : ICAccum n) :=
    icPixel_foldl_skip tpl target sUp sdi warpAt w _ _ h
  simp only [alignImplIC, hfold]
  rw [if_pos trivial]

/-- C5 (witness): with a 3x3 template (one interior pixel), a 1x1 target and
the identity warp, the border-1 validity test is unsatisfiable, and the step
returns the untouched warp with the error sentinel and a zero increment. -/
theorem ic_no_valid_pixels_witness :
    alignImplIC (n := 2) img3 img0 1 (fun _ => 0) 1 planarWarpPoint
        (fun w d => transUpdateIC w (d 0, d 1)) (1 : M3)
      = { warp := (1 : M3), error := floatMax, inc := 0 } := by
  refine ic_no_valid_pixels img3 img0 1 (fun _ => 0) 1 planarWarpPoint
    (fun w d => transUpdateIC w (d 0, d 1)) (1 : M3) ?_
  intro px hpx hin
  obtain ⟨h1, h2, -, -⟩ := hin
  simp only [img0] at h1 h2
  norm_num at h1 h2
  linarith
